import Mathlib

/-!
Verification of the `yourtion/node-ebase` base-model layer.

The development shallowly embeds the current (`EBase`) implementation of
`src/index.ts`: the condition compiler `parseWhere`, the statement builders
(`_count`, `_list`, `_search`, `_insert`, `_batchInsert`, `_updateByField`,
`_deleteByField`, `_deleteByPrimary`, `_getByPrimary`, `_incrFields`,
`_createOrUpdate`), the result-mapping execution layer (`page`, `count`,
`updateByField`, ...) and the two transaction wrappers.

JavaScript runtime values are modelled explicitly: `undefined` as `Option`/
a dedicated constructor, truthiness as a `Bool`-valued function, and the
declared TypeScript value types (`IConditions = string | number | string[]`)
as small inductive types.  The statement-builder collaborator (squel) is a
black box: a built statement records exactly the calls made on the builder.
-/

set_option autoImplicit false

/-- Drop the first occurrence of a character from a character list. -/
def removeFirstChar : List Char → Char → List Char
  | [], _ => []
  | c :: cs, t => if c = t then cs else c :: removeFirstChar cs t

/-- JS `s.replace(pat, "")` for a one-character pattern: only the first
occurrence is removed. -/
def replaceFirst (s : String) (c : Char) : String :=
  ⟨removeFirstChar s.data c⟩

/-- JS `s.indexOf(c) !== -1` for a one-character needle. -/
def containsChar (s : String) (c : Char) : Bool :=
  s.data.contains c

/-- JS `s.indexOf(c) === 0` for a one-character needle. -/
def startsWithChar (s : String) (c : Char) : Bool :=
  match s.data with
  | [] => false
  | a :: _ => a = c

/-- JS `Array.prototype.toString`: elements joined with commas. -/
def joinComma : List String → String
  | [] => ""
  | [x] => x
  | x :: xs => x ++ "," ++ joinComma xs

/-- A value of the declared condition type `IConditions = IKVObject<string |
number | string[]>`. -/
inductive CondVal where
  | vstr (s : String)
  | vnum (n : Int)
  | varr (l : List String)
deriving DecidableEq

/-- String coercion applied by JS `+` when a condition value is interpolated
into `"%" + v + "%"`. -/
def CondVal.jsStr : CondVal → String
  | .vstr s => s
  | .vnum n => toString n
  | .varr l => joinComma l

/-- JS `Array.isArray`. -/
def CondVal.isArr : CondVal → Bool
  | .varr _ => true
  | _ => false

/-- One `sql.where(text, ...params)` call recorded on the statement builder.
The first argument is `none` when the source passes JS `undefined` to
`sql.where` — this happens only for a leading-`$` key holding an empty array,
where `condition[0]` is `undefined`. -/
structure WhereClause where
  text : Option String
  params : List CondVal
deriving DecidableEq

/-- The clauses `parseWhere` (src/index.ts lines 749–772) appends for a single
key/value pair, in source order of the dispatch:
leading `$` → raw clause (an array is destructured into
`sql.where(condition[0], ...condition.slice(1))` — `condition[0]` being JS
`undefined` for an empty array — a plain string is passed verbatim, any other
value is skipped by the `typeof condition === "string"` guard); `#` anywhere →
`LIKE` with `%`-wrapped value; `$` anywhere (necessarily non-leading here) →
sigil-stripped key as clause text with the value bound; array value → `in`;
otherwise `=`. -/
def parseWhereKey (k : String) (v : CondVal) : List WhereClause :=
  if startsWithChar k '$' then
    match v with
    | .varr l => [⟨l.get? 0, (l.drop 1).map .vstr⟩]
    | .vstr s => [⟨some s, []⟩]
    | .vnum _ => []
  else if containsChar k '#' then
    [⟨some (replaceFirst k '#' ++ " like ?"), [.vstr ("%" ++ v.jsStr ++ "%")]⟩]
  else if containsChar k '$' then
    [⟨some (replaceFirst k '$'), [v]⟩]
  else if v.isArr then
    [⟨some (k ++ " in ?"), [v]⟩]
  else
    [⟨some (k ++ " = ?"), [v]⟩]

/-- Function `parseWhere` over a whole condition map (`Object.keys` preserves insertion
order for the string keys used here). -/
def parseWhere (conds : List (String × CondVal)) : List WhereClause :=
  (conds.map fun kv => parseWhereKey kv.1 kv.2).flatten

/-- The single clause the amended claim's rule list predicts for a key not
beginning with `$`, in the claim's own first-match order: `#` anywhere →
LIKE; `$` at a non-zero position → raw stripped key with bound value; array
value → `in`; otherwise `=`. -/
def claimClause (k : String) (v : CondVal) : WhereClause :=
  if containsChar k '#' then
    ⟨some (replaceFirst k '#' ++ " like ?"), [.vstr ("%" ++ v.jsStr ++ "%")]⟩
  else if containsChar k '$' ∧ ¬ startsWithChar k '$' then
    ⟨some (replaceFirst k '$'), [v]⟩
  else if v.isArr then
    ⟨some (k ++ " in ?"), [v]⟩
  else
    ⟨some (k ++ " = ?"), [v]⟩

/-- All clauses the amended claim predicts for one key.  A key beginning with
`$` takes the raw-clause rule: an array value contributes its first element
(JS `undefined`, i.e. `none`, when the array is empty) as the clause text
with the remaining elements as parameters, a string value contributes itself
verbatim with no parameters, and any other value contributes no clause at
all.  Every other key contributes exactly the single clause picked by
`claimClause`. -/
def claimClauses (k : String) (v : CondVal) : List WhereClause :=
  if startsWithChar k '$' then
    match v with
    | .varr l => [⟨l.get? 0, (l.drop 1).map .vstr⟩]
    | .vstr s => [⟨some s, []⟩]
    | .vnum _ => []
  else [claimClause k v]

theorem parseWhereKey_eq_claimClause (k : String) (v : CondVal)
    (h : startsWithChar k '$' = false) :
    parseWhereKey k v = [claimClause k v] := by
  unfold parseWhereKey claimClause
  rw [h]
  by_cases h1 : containsChar k '#'
  · simp [h1]
  · by_cases h2 : containsChar k '$'
    · simp [h1, h2, h]
    · by_cases h3 : v.isArr <;> simp [h1, h2, h3, h]

theorem parseWhereKey_eq_claimClauses (k : String) (v : CondVal) :
    parseWhereKey k v = claimClauses k v := by
  by_cases h : startsWithChar k '$'
  · unfold parseWhereKey claimClauses
    rw [if_pos h, if_pos h]
  · rw [parseWhereKey_eq_claimClause k v (by simpa using h)]
    unfold claimClauses
    rw [if_neg h]

/-- C1 (amended): for every condition map — leading-`$` keys included —
`parseWhere` appends per key exactly the clauses the amended rule list
(`claimClauses`) predicts: a leading-`$` key takes the raw-clause rule (array
→ first element as clause text with the remaining elements as parameters,
string → verbatim, any other value → no clause), and every key not beginning
with `$` appends exactly one clause, the one selected by the claim's
first-match order (`#` → LIKE before the non-leading-`$` raw rule, then array
→ `in`, then `=`). -/
theorem parseWhere_follows_first_match_rules (conds : List (String × CondVal))
    (k : String) (v : CondVal) (h : startsWithChar k '$' = false) :
    parseWhere conds = (conds.map fun kv => claimClauses kv.1 kv.2).flatten
  ∧ parseWhereKey k v = [claimClause k v]
  ∧ claimClauses k v = [claimClause k v] := by
  refine ⟨?_, parseWhereKey_eq_claimClause k v h, ?_⟩
  · unfold parseWhere
    exact congrArg List.flatten
      (congrArg (fun f => conds.map f)
        (funext fun kv => parseWhereKey_eq_claimClauses kv.1 kv.2))
  · unfold claimClauses
    rw [if_neg (by simp [h])]

/-- Witness for C1 (amended) on a mixed condition map: a LIKE key, a
leading-`$` key holding an array (raw clause with parameters), a leading-`$`
key holding a string (raw clause, no parameters), a leading-`$` key holding a
number (no clause), a key holding both `#` and a non-leading `$` (tie-break:
LIKE wins), a non-leading-`$` key, an array-valued key and a plain scalar
key; the trailing conjuncts evaluate the leading-`$` rules concretely. -/
theorem parseWhere_rules_witness :
    parseWhere
        [("#name", CondVal.vstr "yourtion"),
         ("$or", CondVal.varr ["a = ? or b = ?", "1", "2"]),
         ("$raw", CondVal.vstr "c > 1"), ("$skip", CondVal.vnum 5),
         ("na$me#", CondVal.vstr "q"), ("age$x", CondVal.vnum 3),
         ("id", CondVal.varr ["1", "2"]), ("a", CondVal.vstr "b")]
      = ([("#name", CondVal.vstr "yourtion"),
          ("$or", CondVal.varr ["a = ? or b = ?", "1", "2"]),
          ("$raw", CondVal.vstr "c > 1"), ("$skip", CondVal.vnum 5),
          ("na$me#", CondVal.vstr "q"), ("age$x", CondVal.vnum 3),
          ("id", CondVal.varr ["1", "2"]), ("a", CondVal.vstr "b")].map
            fun kv => claimClauses kv.1 kv.2).flatten
  ∧ parseWhereKey "#name" (CondVal.vstr "yourtion")
      = [claimClause "#name" (CondVal.vstr "yourtion")]
  ∧ claimClauses "#name" (CondVal.vstr "yourtion")
      = [claimClause "#name" (CondVal.vstr "yourtion")]
  ∧ parseWhere [("$or", CondVal.varr ["a = ? or b = ?", "1", "2"])]
      = [⟨some "a = ? or b = ?", [CondVal.vstr "1", CondVal.vstr "2"]⟩]
  ∧ parseWhere [("$raw", CondVal.vstr "c > 1")] = [⟨some "c > 1", []⟩]
  ∧ parseWhere [("#name", CondVal.vstr "yourtion")]
      = [⟨some "name like ?", [CondVal.vstr "%yourtion%"]⟩] :=
  have happ := parseWhere_follows_first_match_rules
    [("#name", CondVal.vstr "yourtion"),
     ("$or", CondVal.varr ["a = ? or b = ?", "1", "2"]),
     ("$raw", CondVal.vstr "c > 1"), ("$skip", CondVal.vnum 5),
     ("na$me#", CondVal.vstr "q"), ("age$x", CondVal.vnum 3),
     ("id", CondVal.varr ["1", "2"]), ("a", CondVal.vstr "b")]
    "#name" (CondVal.vstr "yourtion") (by decide)
  ⟨happ.1, happ.2.1, happ.2.2, by decide, by decide, by decide⟩

/-- C1 counterexample: the claim asserts exactly one WHERE clause per key and
its catch-all rules predict `$x = ?` for the pair `("$x", 5)`, but the source's
leading-`$` branch only accepts arrays and strings, so a leading-`$` key with a
number value appends no clause at all. -/
theorem parseWhere_leading_dollar_counterexample :
    parseWhere [("$x", CondVal.vnum 5)] = [] ∧
    claimClause "$x" (CondVal.vnum 5) = ⟨some "$x = ?", [CondVal.vnum 5]⟩ := by
  decide

/-- A loosely-typed JS value as it flows through the paging argument lists:
`undefined`, a number, a string, a boolean, or an `IPageParams` options record
`{limit, offset, order, asc}` (each field itself a JS value, `undefined` when
omitted). -/
inductive JsV where
  | undefined
  | num (n : Int)
  | str (s : String)
  | bool (b : Bool)
  | page (limit offset order asc : JsV)
deriving DecidableEq

/-- JS truthiness for the values of `JsV`. -/
def jsTruthy : JsV → Bool
  | .undefined => false
  | .num n => n != 0
  | .str s => s != ""
  | .bool b => b
  | .page _ _ _ _ => true

/-- A JS default parameter value: used exactly when the argument is
`undefined` (which also covers a missing argument). -/
def jsDefault (v d : JsV) : JsV :=
  if v = JsV.undefined then d else v

/-- JS `typeof x === "object"` over `JsV` (records are objects; `undefined`,
numbers, strings and booleans are not). -/
def isObjJs : JsV → Bool
  | .page _ _ _ _ => true
  | _ => false

/-- JS property read `x.limit` (an options record yields its field, any other
non-null value yields `undefined`). -/
def jsLimit : JsV → JsV
  | .page l _ _ _ => l
  | _ => .undefined

/-- JS property read `x.offset`. -/
def jsOffset : JsV → JsV
  | .page _ o _ _ => o
  | _ => .undefined

/-- JS property read `x.order`. -/
def jsOrder : JsV → JsV
  | .page _ _ o _ => o
  | _ => .undefined

/-- JS property read `x.asc`. -/
def jsAsc : JsV → JsV
  | .page _ _ _ a => a
  | _ => .undefined

/-- Constructor options (`IBaseOptions`): every field may be omitted.  The
table-prefix field is called `prefix` in the source. -/
structure BaseOptions where
  pfx : Option String := none
  primaryKey : Option String := none
  fields : Option (List String) := none
  order : Option String := none
  asc : Option Bool := none
deriving DecidableEq

/-- The state of a constructed `EBase` instance. -/
structure EBaseInst where
  table : String
  primaryKey : String
  fields : List String
  order : Option String
  asc : Bool
deriving DecidableEq

/-- JS `x || d` for an optional string (the empty string is falsy). -/
def jsOrStr (o : Option String) (d : String) : String :=
  match o with
  | some s => if s = "" then d else s
  | none => d

/-- JS `x || d` for an optional boolean: `false` is falsy, so the default is
taken both for `undefined` and for `false`. -/
def jsOrBool (o : Option Bool) (d : Bool) : Bool :=
  match o with
  | some b => if b then b else d
  | none => d

/-- The `EBase` constructor (src/index.ts lines 796–805):
`this.table = (options.prefix !== undefined ? options.prefix : "") + table`,
`this.primaryKey = options.primaryKey || "id"`,
`this.fields = options.fields || []`, `this.order = options.order`,
`this.asc = options.asc || true`. -/
def mkEBase (table : String) (options : BaseOptions) : EBaseInst :=
  { table := (match options.pfx with | some p => p | none => "") ++ table
    primaryKey := jsOrStr options.primaryKey "id"
    fields := (options.fields).getD []
    order := options.order
    asc := jsOrBool options.asc true }

/-- A built SELECT statement: the calls recorded on the squel builder.
`fields` holds `(expression, alias)` pairs from `.field(...)`; `offset` /
`limit` hold the raw JS argument passed to `.offset(...)` / `.limit(...)`;
`order` records the `(column, direction)` arguments of `.order(...)` when the
order value was truthy. -/
structure SelectStmt where
  autoQuote : Bool
  table : String
  fields : List (String × Option String)
  offset : Option JsV
  limit : Option JsV
  wheres : List WhereClause
  order : Option (JsV × JsV)
deriving DecidableEq

/-- The `_count` builder (src/index.ts lines 830–837): plain `select()` (no
quoting options), `COUNT(*)` aliased `c`, conditions compiled by
`parseWhere`, no paging and no ordering. -/
def countBuild (b : EBaseInst) (conds : List (String × CondVal)) : SelectStmt :=
  { autoQuote := false
    table := b.table
    fields := [("COUNT(*)", some "c")]
    offset := none
    limit := none
    wheres := parseWhere conds
    order := none }

/-- The `_list` builder (src/index.ts lines 1046–1066).  Parameter defaults:
`limit = 999`, `offset = 0`, `order = this.order`, `asc = this.asc`; the
`.order(order, asc)` call happens only when the resolved order is truthy.
The `removeUndefined(conditions)` call is the identity on the declared
condition type `IConditions` (whose values cannot be `undefined`) and its
broken emptiness check never throws (see `removeUndefined` below). -/
def listBuild (b : EBaseInst) (conds : List (String × CondVal))
    (fields : List String) (limit offset order asc : JsV) : SelectStmt :=
  let limit := jsDefault limit (JsV.num 999)
  let offset := jsDefault offset (JsV.num 0)
  let order := jsDefault order (match b.order with | some s => JsV.str s | none => JsV.undefined)
  let asc := jsDefault asc (JsV.bool b.asc)
  { autoQuote := true
    table := b.table
    fields := fields.map (fun f => (f, none))
    offset := some offset
    limit := some limit
    wheres := parseWhere conds
    order := if jsTruthy order then some (order, asc) else none }

/-- The `listRaw` dispatcher (src/index.ts lines 1068–1076), reached by both
`list` overloads: it takes the options-record branch only when
`args.length === 2 && typeof args[1] === "object"`, and that branch reads the
record out of `args[0]`; otherwise the arguments are passed positionally. -/
def listDispatch (b : EBaseInst) (conds : List (String × CondVal))
    (fields : List String) (args : List JsV) : SelectStmt :=
  if args.length = 2 ∧ isObjJs (args.getD 1 JsV.undefined) then
    let a0 := args.getD 0 JsV.undefined
    listBuild b conds fields (jsLimit a0) (jsOffset a0) (jsOrder a0) (jsAsc a0)
  else
    listBuild b conds fields (args.getD 0 JsV.undefined) (args.getD 1 JsV.undefined)
      (args.getD 2 JsV.undefined) (args.getD 3 JsV.undefined)

/-- The `_search` builder (src/index.ts lines 1097–1124): empty keyword or
empty search-column list is rejected; otherwise the WHERE clause is the squel
expression `OR`-chain of `col like ?` bound to the `%`-wrapped keyword, with
default `limit = 10`, `offset = 0`, `order = this.order`, `asc = true`. -/
def searchBuild (b : EBaseInst) (keyword : String) (search : List String)
    (fields : List String) (limit offset order asc : JsV) :
    Except String SelectStmt :=
  if keyword = "" ∨ search.length < 1 then
    .error "`keyword` | `search` 不能为空"
  else
    let limit := jsDefault limit (JsV.num 10)
    let offset := jsDefault offset (JsV.num 0)
    let order := jsDefault order (match b.order with | some s => JsV.str s | none => JsV.undefined)
    let asc := jsDefault asc (JsV.bool true)
    .ok { autoQuote := true
          table := b.table
          fields := fields.map (fun f => (f, none))
          offset := some offset
          limit := some limit
          wheres :=
            [⟨some (String.intercalate " OR " (search.map (fun k => k ++ " like ?"))),
              search.map (fun _ => CondVal.vstr ("%" ++ keyword ++ "%"))⟩]
          order := if jsTruthy order then some (order, asc) else none }

/-- The `search` dispatcher (src/index.ts lines 1142–1149): the options-record
branch fires on `args.length === 1 && typeof args[0] === "object"` and reads
the record out of `args[0]`. -/
def searchDispatch (b : EBaseInst) (keyword : String) (search : List String)
    (fields : List String) (args : List JsV) : Except String SelectStmt :=
  if args.length = 1 ∧ isObjJs (args.getD 0 JsV.undefined) then
    let a0 := args.getD 0 JsV.undefined
    searchBuild b keyword search fields (jsLimit a0) (jsOffset a0) (jsOrder a0) (jsAsc a0)
  else
    searchBuild b keyword search fields (args.getD 0 JsV.undefined) (args.getD 1 JsV.undefined)
      (args.getD 2 JsV.undefined) (args.getD 3 JsV.undefined)

/-- A row of a query result: column name to cell value. -/
structure RowV where
  cells : List (String × CondVal)
deriving DecidableEq

/-- A JS value on the result side of an execution: `undefined`, a number, a
string, an array, a driver write-result packet (carrying `affectedRows`), a
single row object, a row array, or the `{count, list}` object built by
`page`. -/
inductive ResV where
  | undefined
  | num (n : Int)
  | str (s : String)
  | arr (l : List String)
  | okPacket (affectedRows : Int)
  | row (r : RowV)
  | rows (l : List RowV)
  | pageObj (count : ResV) (list : ResV)
deriving DecidableEq

/-- JS truthiness on result values (objects and arrays are always truthy,
including the empty array). -/
def truthyR : ResV → Bool
  | .undefined => false
  | .num n => n != 0
  | .str s => s != ""
  | .arr _ => true
  | .okPacket _ => true
  | .row _ => true
  | .rows _ => true
  | .pageObj _ _ => true

/-- JS `x && y` on result values: `y` when `x` is truthy, else `x`. -/
def jsAndR (x y : ResV) : ResV :=
  if truthyR x then y else x

/-- Embedding of a result cell back into a JS value. -/
def cellToRes : CondVal → ResV
  | .vstr s => .str s
  | .vnum n => .num n
  | .varr l => .arr l

/-- JS `x[0]` on result values (rows index to a row object, strings to their
first character, everything else to `undefined`). -/
def index0 : ResV → ResV
  | .rows l => match l with
               | [] => .undefined
               | r :: _ => .row r
  | .str s => match s.data with
              | [] => .undefined
              | c :: _ => .str ⟨[c]⟩
  | _ => .undefined

/-- JS property read `x.k` on result values: a row yields its cell, a write
packet yields its `affectedRows`, the page object yields its two fields,
anything else yields `undefined`. -/
def propR (x : ResV) (k : String) : ResV :=
  match x with
  | .row r => ((r.cells.find? (fun kv => kv.1 = k)).map (fun kv => cellToRes kv.2)).getD .undefined
  | .okPacket a => if k = "affectedRows" then .num a else .undefined
  | .pageObj c l => if k = "count" then c else if k = "list" then l else .undefined
  | _ => .undefined

/-- JS `res && res.affectedRows`, the projection every affected-row operation
applies to its query result. -/
def affectedOf (res : ResV) : ResV :=
  jsAndR res (propR res "affectedRows")

/-- JS `res && res[0] && res[0].c`, the projection `count` applies. -/
def countExtract (res : ResV) : ResV :=
  jsAndR (jsAndR res (index0 res)) (propR (index0 res) "c")

/-- The arity of the JS function `Object.keys`, which is 1.  The source's
emptiness check reads `Object.keys.length` — the function's arity — instead of
`Object.keys(object).length`, so the check compares 1 with 0. -/
def objectKeysArity : Nat := 1

/-- Strip entries whose value is `undefined` (`delete object[key]`). -/
def stripUndefined (object : List (String × Option CondVal)) : List (String × CondVal) :=
  object.filterMap fun kv => kv.2.map fun v => (kv.1, v)

/-- The shared helper `removeUndefined` (src/index.ts lines 734–740): deletes
`undefined`-valued keys, then throws `Error("Object is empty")` if
`Object.keys.length === 0` — a condition on the arity of `Object.keys`, which
is never 0, so the throw is unreachable. -/
def removeUndefined (object : List (String × Option CondVal)) :
    Except String (List (String × CondVal)) :=
  if objectKeysArity = 0 then .error "Object is empty"
  else .ok (stripUndefined object)

theorem removeUndefined_never_errors (object : List (String × Option CondVal)) :
    removeUndefined object = .ok (stripUndefined object) := rfl

/-- A `sql.set(...)` call on an UPDATE builder: either a textual assignment
with bound parameters (also used for the pairs of a `setFields` call, which
squel renders as `column = value`), or a raw value passed whole
(`sql.set(objects[k])` for a leading-`$` key in raw mode). -/
inductive SetOp where
  | asgn (text : String) (params : List CondVal)
  | rawv (v : CondVal)
deriving DecidableEq

/-- A built UPDATE statement. -/
structure UpdateStmt where
  table : String
  wheres : List WhereClause
  sets : List SetOp
deriving DecidableEq

/-- A built DELETE statement; `limit` holds the raw JS argument of
`.limit(...)`. -/
structure DeleteStmt where
  table : String
  limit : JsV
  wheres : List WhereClause
deriving DecidableEq

/-- A built INSERT statement: `rows` from `setFields` (one row) or
`setFieldsRows`; `dups` records the `onDupUpdate` calls of
`_createOrUpdate`. -/
structure DupPair where
  col : Option String
  val : Option CondVal
deriving DecidableEq

structure InsertStmt where
  table : String
  rows : List (List (String × CondVal))
  dups : List DupPair
deriving DecidableEq

/-- The `_deleteByField` builder (src/index.ts lines 897–906): no emptiness
check; each condition key contributes `k in ? ` or `k = ? ` (note the source's
trailing space) with the value bound. -/
def deleteByFieldBuild (b : EBaseInst) (conds : List (String × CondVal))
    (limit : JsV) : Except String DeleteStmt :=
  .ok { table := b.table
        limit := limit
        wheres := conds.map fun kv =>
          ⟨some (kv.1 ++ (if kv.2.isArr then " in" else " =") ++ " ? "), [kv.2]⟩ }

/-- The `_deleteByPrimary` builder (src/index.ts lines 879–884): rejects an
absent primary, then delegates to `_deleteByField {primaryKey: primary} 1`. -/
def deleteByPrimaryBuild (b : EBaseInst) (primary : Option CondVal) :
    Except String DeleteStmt :=
  match primary with
  | none => .error "`primary` 不能为空"
  | some p => deleteByFieldBuild b [(b.primaryKey, p)] (JsV.num 1)

/-- The `_updateByField` builder (src/index.ts lines 960–979): rejects an
empty condition map, strips the payload, appends `k = ?` WHERE clauses, and
sets fields either wholesale (`setFields`) or — in raw mode — per key, with a
leading-`$` payload key passing its value as a raw SET expression. -/
def updateByFieldBuild (b : EBaseInst) (conds : List (String × CondVal))
    (objects : List (String × Option CondVal)) (raw : Bool) :
    Except String UpdateStmt :=
  if conds.length < 1 then .error "`key` 不能为空"
  else
    (removeUndefined objects).map fun objs =>
      { table := b.table
        wheres := conds.map fun kv => ⟨some (kv.1 ++ " = ?"), [kv.2]⟩
        sets :=
          if raw then
            objs.map fun kv =>
              if startsWithChar kv.1 '$' then SetOp.rawv kv.2
              else SetOp.asgn (kv.1 ++ " = ?") [kv.2]
          else
            objs.map fun kv => SetOp.asgn (kv.1 ++ " = ?") [kv.2] }

/-- The `_incrFields` builder (src/index.ts lines 1023–1033): rejects an
absent primary; each field contributes the raw assignment
`f = f + num` with no bound parameter. -/
def incrFieldsBuild (b : EBaseInst) (primary : Option CondVal)
    (fields : List String) (num : Int) : Except String UpdateStmt :=
  match primary with
  | none => .error "`primary` 不能为空"
  | some p =>
    .ok { table := b.table
          wheres := [⟨some (b.primaryKey ++ " = ?"), [p]⟩]
          sets := fields.map fun f =>
            SetOp.asgn (f ++ " = " ++ f ++ " + " ++ toString num) [] }

/-- The `_getByPrimary` builder (src/index.ts lines 850–855): rejects an
absent primary, then delegates to `_list {primaryKey: primary} fields 1`. -/
def getByPrimaryBuild (b : EBaseInst) (primary : Option CondVal)
    (fields : List String) : Except String SelectStmt :=
  match primary with
  | none => .error "`primary` 不能为空"
  | some p =>
    .ok (listBuild b [(b.primaryKey, p)] fields (JsV.num 1) JsV.undefined JsV.undefined JsV.undefined)

/-- The `_insert` builder (src/index.ts lines 926–932): strip, then
`setFields`. -/
def insertBuild (b : EBaseInst) (object : List (String × Option CondVal)) :
    Except String InsertStmt :=
  (removeUndefined object).map fun o => { table := b.table, rows := [o], dups := [] }

/-- The `_batchInsert` builder (src/index.ts lines 945–951): strip each row,
then `setFieldsRows`. -/
def batchInsertBuild (b : EBaseInst)
    (array : List (List (String × Option CondVal))) : Except String InsertStmt :=
  (array.mapM removeUndefined).map fun rs => { table := b.table, rows := rs, dups := [] }

/-- JS read `objects[k]` on the stripped payload (first matching key). -/
def jsGet (objs : List (String × CondVal)) (k : String) : Option CondVal :=
  (objs.find? (fun kv => kv.1 = k)).map (fun kv => kv.2)

/-- The per-key duplicate-update dispatch of `_createOrUpdate` (src/index.ts
lines 1006–1012), checked in source order: an array value contributes
`onDupUpdate(v[0], v[1])`; otherwise a defined value contributes
`onDupUpdate(k, v)`; an undefined/absent value contributes nothing. -/
def dupRule (objs : List (String × CondVal)) (k : String) : Option DupPair :=
  match jsGet objs k with
  | some (CondVal.varr l) => some ⟨l.get? 0, (l.get? 1).map CondVal.vstr⟩
  | some v => some ⟨some k, some v⟩
  | none => none

/-- The `_createOrUpdate` builder (src/index.ts lines 1002–1014): strip, set
all fields, then apply `dupRule` to every key of `update`.  (The in-place
`removeUndefined` mutation means the `objects[k]` reads in the loop observe
the stripped payload; an entry deleted by the strip reads as `undefined`
exactly as it did before the strip.) -/
def createOrUpdateBuild (b : EBaseInst) (objects : List (String × Option CondVal))
    (update : List String) : Except String InsertStmt :=
  (removeUndefined objects).map fun objs =>
    { table := b.table
      rows := [objs]
      dups := update.filterMap (dupRule objs) }

/-- Execution model: the database collaborator is an oracle from a built
statement to the value its promise resolves with.  An operation first builds
its statement — which may throw synchronously — and only on success consults
the oracle, so a build error is raised before any I/O. -/
def countOp (b : EBaseInst) (db : SelectStmt → ResV)
    (conds : List (String × CondVal)) : ResV :=
  countExtract (db (countBuild b conds))

/-- Operation `list` (through `listRaw` and its dispatcher) resolves with the raw row
result. -/
def listOp (b : EBaseInst) (db : SelectStmt → ResV)
    (conds : List (String × CondVal)) (fields : List String)
    (args : List JsV) : ResV :=
  db (listDispatch b conds fields args)

/-- The `page` combinator (src/index.ts lines 1166–1170): runs the list fetch
and the count fetch, then resolves with
`list && {count, list}` where the destructuring `[list, count = 0]` defaults
an `undefined` count to 0. -/
def pageOp (b : EBaseInst) (db : SelectStmt → ResV)
    (conds : List (String × CondVal)) (fields : List String)
    (args : List JsV) : ResV :=
  let listRes := db (listDispatch b conds fields args)
  let countRes := countExtract (db (countBuild b conds))
  let cnt := if countRes = ResV.undefined then ResV.num 0 else countRes
  jsAndR listRes (ResV.pageObj cnt listRes)

/-- Operation `getByPrimary` resolves with `res && res[0]`. -/
def getByPrimaryOp (b : EBaseInst) (db : SelectStmt → ResV)
    (primary : Option CondVal) (fields : List String) : Except String ResV :=
  (getByPrimaryBuild b primary fields).map fun s => jsAndR (db s) (index0 (db s))

/-- Operation `updateByFieldRaw` (src/index.ts lines 981–983) resolves with
`res && res.affectedRows`. -/
def updateByFieldRawOp (b : EBaseInst) (db : UpdateStmt → ResV)
    (conds : List (String × CondVal)) (objects : List (String × Option CondVal))
    (raw : Bool) : Except String ResV :=
  (updateByFieldBuild b conds objects raw).map fun s => affectedOf (db s)

/-- Operation `updateByField` (src/index.ts lines 988–990) resolves with
`updateByFieldRaw(...).then(res => res && res.affectedRows)` — the projection
is applied a second time. -/
def updateByFieldOp (b : EBaseInst) (db : UpdateStmt → ResV)
    (conds : List (String × CondVal)) (objects : List (String × Option CondVal))
    (raw : Bool) : Except String ResV :=
  (updateByFieldRawOp b db conds objects raw).map affectedOf

/-- Operation `updateByPrimary` (src/index.ts lines 995–1000) rejects an absent primary,
then resolves with `updateByField(...).then(res => res && res.affectedRows)` —
a third application of the projection. -/
def updateByPrimaryOp (b : EBaseInst) (db : UpdateStmt → ResV)
    (primary : Option CondVal) (objects : List (String × Option CondVal))
    (raw : Bool) : Except String ResV :=
  match primary with
  | none => .error "`primary` 不能为空"
  | some p => (updateByFieldOp b db [(b.primaryKey, p)] objects raw).map affectedOf

/-- Operation `deleteByField` resolves with `res && res.affectedRows`. -/
def deleteByFieldOp (b : EBaseInst) (db : DeleteStmt → ResV)
    (conds : List (String × CondVal)) (limit : JsV) : Except String ResV :=
  (deleteByFieldBuild b conds limit).map fun s => affectedOf (db s)

/-- Operation `deleteByPrimary` resolves with `res && res.affectedRows`. -/
def deleteByPrimaryOp (b : EBaseInst) (db : DeleteStmt → ResV)
    (primary : Option CondVal) : Except String ResV :=
  (deleteByPrimaryBuild b primary).map fun s => affectedOf (db s)

/-- Operation `incrFields` resolves with `res && res.affectedRows`. -/
def incrFieldsOp (b : EBaseInst) (db : UpdateStmt → ResV)
    (primary : Option CondVal) (fields : List String) (num : Int) :
    Except String ResV :=
  (incrFieldsBuild b primary fields num).map fun s => affectedOf (db s)

/-- Events a dedicated transaction connection can observe. -/
inductive Ev where
  | begin
  | stmt (s : String)
  | commit
  | rollback
  | release
deriving DecidableEq

/-- The statement loop of `transactionSQLs`: statements are attempted in
program order on the dedicated connection; the loop stops at the first
failure.  `ok` tells for each statement whether its execution succeeds.
Returns the attempted-statement events and whether all succeeded. -/
def runStmts : List String → (String → Bool) → List Ev × Bool
  | [], _ => ([], true)
  | s :: rest, ok =>
    if ok s then
      let r := runStmts rest ok
      (Ev.stmt s :: r.1, r.2)
    else ([Ev.stmt s], false)

/-- The `transactions` wrapper (src/index.ts lines 1175–1202) as the event
trace its dedicated connection observes.  The unit of work is a callback,
abstracted as the statements it successfully issued plus whether it threw;
`beginOk` tells whether the `beginTransactionAsync` call succeeds and
`commitOk` whether the COMMIT, when reached, succeeds.  An empty name throws
before any connection is acquired (empty trace).  BEGIN is awaited at
index.ts:1185, BEFORE the `try`/`finally` block: when it rejects, the
wrapper throws with the `finally` never entered, so the acquired connection
observes only the BEGIN attempt and is never released.  When BEGIN succeeds,
the `catch` issues ROLLBACK and re-raises through the error hook and the
`finally` always releases. -/
def transactionsRun (name : String) (beginOk : Bool) (issued : List String)
    (workThrows : Bool) (commitOk : Bool) : List Ev :=
  if name = "" then []
  else if beginOk then
    Ev.begin :: issued.map Ev.stmt ++
      (if workThrows then [Ev.rollback, Ev.release]
       else if commitOk then [Ev.commit, Ev.release]
       else [Ev.commit, Ev.rollback, Ev.release])
  else [Ev.begin]

/-- The `transactionSQLs` wrapper (src/index.ts lines 1207–1231) as the event
trace its dedicated connection observes.  An empty statement list throws
before any connection is acquired; BEGIN is awaited at index.ts:1214, before
the `try`/`finally`, so a rejecting BEGIN likewise skips the release. -/
def transactionSQLsRun (sqls : List String) (beginOk : Bool)
    (ok : String → Bool) (commitOk : Bool) : List Ev :=
  if sqls.length < 1 then []
  else if beginOk then
    let r := runStmts sqls ok
    Ev.begin :: r.1 ++
      (if r.2 then
        (if commitOk then [Ev.commit, Ev.release]
         else [Ev.commit, Ev.rollback, Ev.release])
       else [Ev.rollback, Ev.release])
  else [Ev.begin]

theorem runStmts_all_ok (sqls : List String) (ok : String → Bool)
    (h : ∀ s ∈ sqls, ok s = true) :
    runStmts sqls ok = (sqls.map Ev.stmt, true) := by
  induction sqls with
  | nil => rfl
  | cons s rest ih =>
    have hs : ok s = true := h s (List.mem_cons_self _ _)
    simp [runStmts, hs, ih (fun x hx => h x (List.mem_cons_of_mem _ hx))]

theorem runStmts_first_fail (pre : List String) (bad : String) (post : List String)
    (ok : String → Bool) (hpre : ∀ s ∈ pre, ok s = true) (hbad : ok bad = false) :
    runStmts (pre ++ bad :: post) ok = ((pre ++ [bad]).map Ev.stmt, false) := by
  induction pre with
  | nil => simp [runStmts, hbad]
  | cons s rest ih =>
    have hs : ok s = true := hpre s (List.mem_cons_self _ _)
    simp [runStmts, hs, ih (fun x hx => hpre x (List.mem_cons_of_mem _ hx))]

theorem runStmts_only_stmts (sqls : List String) (ok : String → Bool) :
    ∀ e ∈ (runStmts sqls ok).1, ∃ s, e = Ev.stmt s := by
  induction sqls with
  | nil => intro e he; simp [runStmts] at he
  | cons s rest ih =>
    intro e he
    by_cases hs : ok s
    · simp [runStmts, hs] at he
      rcases he with h | h
      · exact ⟨s, h⟩
      · exact ih e h
    · simp [runStmts, hs] at he
      exact ⟨s, he⟩

theorem runStmts_release_count (sqls : List String) (ok : String → Bool) :
    (runStmts sqls ok).1.count Ev.release = 0 := by
  rw [List.count_eq_zero]
  intro hmem
  rcases runStmts_only_stmts sqls ok Ev.release hmem with ⟨s, hs⟩
  exact Ev.noConfusion hs

/-- C2 (amended): both transaction entry points drive the dedicated
connection through the claimed protocol whenever BEGIN succeeds.  Callback
form: normal completion gives BEGIN, statements, COMMIT, RELEASE and never
ROLLBACK; a throwing unit of work gives BEGIN, the issued statements,
ROLLBACK, RELEASE and never COMMIT; a failing COMMIT is followed by ROLLBACK
then RELEASE.  Statement-list form: all-success gives BEGIN, statements in
program order, COMMIT, RELEASE and never ROLLBACK; a failing statement stops
the loop after its own attempt and gives ROLLBACK, RELEASE and never COMMIT.
On every path on which BEGIN succeeded the connection is released exactly
once; on a path whose BEGIN rejects — BEGIN being awaited before the
`try`/`finally` in both wrappers — the acquired connection observes only the
BEGIN attempt and is never released. -/
theorem transaction_protocol
    (name : String) (hn : name ≠ "") (issued : List String)
    (sqls pre post : List String) (bad : String) (ok : String → Bool)
    (hs : sqls ≠ []) (hok : ∀ s ∈ sqls, ok s = true)
    (hpre : ∀ s ∈ pre, ok s = true) (hbad : ok bad = false) :
    (transactionsRun name true issued false true
        = Ev.begin :: issued.map Ev.stmt ++ [Ev.commit, Ev.release]
      ∧ Ev.rollback ∉ transactionsRun name true issued false true)
  ∧ (∀ c, transactionsRun name true issued true c
        = Ev.begin :: issued.map Ev.stmt ++ [Ev.rollback, Ev.release]
      ∧ Ev.commit ∉ transactionsRun name true issued true c)
  ∧ transactionsRun name true issued false false
        = Ev.begin :: issued.map Ev.stmt ++ [Ev.commit, Ev.rollback, Ev.release]
  ∧ (transactionSQLsRun sqls true ok true
        = Ev.begin :: sqls.map Ev.stmt ++ [Ev.commit, Ev.release]
      ∧ Ev.rollback ∉ transactionSQLsRun sqls true ok true)
  ∧ (∀ c, transactionSQLsRun (pre ++ bad :: post) true ok c
        = Ev.begin :: (pre ++ [bad]).map Ev.stmt ++ [Ev.rollback, Ev.release]
      ∧ Ev.commit ∉ transactionSQLsRun (pre ++ bad :: post) true ok c)
  ∧ (∀ w c, (transactionsRun name true issued w c).count Ev.release = 1)
  ∧ (∀ okf c, (transactionSQLsRun sqls true okf c).count Ev.release = 1)
  ∧ (∀ w c, transactionsRun name false issued w c = [Ev.begin]
      ∧ (transactionsRun name false issued w c).count Ev.release = 0)
  ∧ (∀ okf c, transactionSQLsRun sqls false okf c = [Ev.begin]
      ∧ (transactionSQLsRun sqls false okf c).count Ev.release = 0) := by
  have hlen : ¬ sqls.length < 1 := by
    simpa [Nat.lt_one_iff, List.length_eq_zero] using hs
  have hlen2 : ¬ (pre ++ bad :: post).length < 1 := by
    simp [Nat.lt_one_iff]
  refine ⟨⟨?_, ?_⟩, ?_, ?_, ⟨?_, ?_⟩, ?_, ?_, ?_, ?_, ?_⟩
  · simp [transactionsRun, hn]
  · simp [transactionsRun, hn]
  · intro c
    constructor
    · simp [transactionsRun, hn]
    · simp [transactionsRun, hn]
  · simp [transactionsRun, hn]
  · simp [transactionSQLsRun, hlen, runStmts_all_ok sqls ok hok]
  · simp [transactionSQLsRun, hlen, runStmts_all_ok sqls ok hok]
  · intro c
    constructor
    · simp [transactionSQLsRun, hlen2, runStmts_first_fail pre bad post ok hpre hbad]
    · simp [transactionSQLsRun, hlen2, runStmts_first_fail pre bad post ok hpre hbad]
  · intro w c
    cases w <;> cases c <;>
      simp [transactionsRun, hn, List.count_append, List.count_cons, List.count_eq_zero]
  · intro okf c
    cases c <;> by_cases hb : (runStmts sqls okf).2 = true <;>
      simp [transactionSQLsRun, hlen, List.count_append, List.count_cons,
        runStmts_release_count sqls okf, hb]
  · intro w c
    exact ⟨by simp [transactionsRun, hn], by simp [transactionsRun, hn]⟩
  · intro okf c
    exact ⟨by simp [transactionSQLsRun, hlen], by simp [transactionSQLsRun, hlen]⟩

/-- Witness for C2 (amended) at concrete inputs: name `"t"`, a callback that
issued `"a"` and `"b"`, statement list `["s1", "s2"]`, a failing run whose
second statement `"u2"` is rejected, and a run whose BEGIN rejects. -/
theorem transaction_protocol_witness :
    transactionsRun "t" true ["a", "b"] false true
        = Ev.begin :: [Ev.stmt "a", Ev.stmt "b"] ++ [Ev.commit, Ev.release]
  ∧ transactionSQLsRun ["u1", "u2", "u3"] true (fun s => !(s == "u2")) true
        = Ev.begin :: [Ev.stmt "u1", Ev.stmt "u2"] ++ [Ev.rollback, Ev.release]
  ∧ transactionsRun "t" false ["a", "b"] false true = [Ev.begin] :=
  ⟨(transaction_protocol "t" (by decide) ["a", "b"] ["s1", "s2"] ["u1"] ["u3"] "u2"
      (fun s => !(s == "u2")) (by decide) (by decide) (by decide) (by decide)).1.1,
   ((transaction_protocol "t" (by decide) ["a", "b"] ["s1", "s2"] ["u1"] ["u3"] "u2"
      (fun s => !(s == "u2")) (by decide) (by decide) (by decide)
      (by decide)).2.2.2.2.1 true).1,
   ((transaction_protocol "t" (by decide) ["a", "b"] ["s1", "s2"] ["u1"] ["u3"] "u2"
      (fun s => !(s == "u2")) (by decide) (by decide) (by decide)
      (by decide)).2.2.2.2.2.2.2.1 false true).1⟩

/-- C2 counterexample: `beginTransactionAsync` is awaited before the
`try`/`finally` in both wrappers (index.ts:1185 and 1214), so when BEGIN
rejects the acquired dedicated connection observes only the BEGIN attempt and
release is called zero times — not exactly once, as the claim asserts for
every path on which a connection was acquired. -/
theorem transaction_begin_failure_counterexample :
    transactionsRun "t" false ["a"] false true = [Ev.begin]
  ∧ (transactionsRun "t" false ["a"] false true).count Ev.release = 0
  ∧ transactionSQLsRun ["s1"] false (fun _ => true) true = [Ev.begin]
  ∧ (transactionSQLsRun ["s1"] false (fun _ => true) true).count Ev.release = 0 := by
  exact ⟨rfl, by decide, rfl, by decide⟩

/-- Check that a build succeeded. -/
def builtOk {α : Type} : Except String α → Bool
  | .ok _ => true
  | .error _ => false

/-- The concrete table binding `new Base("test", connect)` used by the
concrete evaluations below. -/
def testBase : EBaseInst := mkEBase "test" {}

/-- C3 counterexample: `_deleteByField` with an empty condition map raises no
error — it builds a DELETE with no WHERE clause — and the `deleteByField`
pipeline then consults the database and resolves with the affected count, so
the claimed `InvalidArgument` is never raised for the delete family. -/
theorem deleteByField_empty_counterexample :
    deleteByFieldBuild testBase [] (JsV.num 1)
        = .ok { table := "test", limit := JsV.num 1, wheres := [] }
  ∧ deleteByFieldOp testBase (fun _ => ResV.okPacket 2) [] (JsV.num 1)
        = .ok (ResV.num 2) := by
  constructor <;> rfl

/-- C3 (amended): `_updateByField` (and the `updateByField` pipeline) with an
empty condition map raises `InvalidArgument` while the statement is built,
before the database oracle can be consulted, whereas `_deleteByField` performs
no emptiness check and always builds successfully. -/
theorem updateByField_empty_rejected (b : EBaseInst)
    (objects : List (String × Option CondVal)) (raw : Bool)
    (conds : List (String × CondVal)) (limit : JsV) (db : UpdateStmt → ResV) :
    updateByFieldBuild b [] objects raw = .error "`key` 不能为空"
  ∧ updateByFieldOp b db [] objects raw = .error "`key` 不能为空"
  ∧ builtOk (deleteByFieldBuild b conds limit) = true := by
  exact ⟨rfl, rfl, rfl⟩

/-- C4: absent-valued fields are stripped from a write payload, but the
emptiness rejection can never fire because the source tests
`Object.keys.length` — the arity of the function `Object.keys`, which is 1 —
instead of the stripped object's key count; a payload that strips to empty
therefore builds a no-op INSERT instead of raising `InvalidArgument`. -/
theorem insert_empty_payload_not_rejected :
    removeUndefined [("a", (none : Option CondVal))] = .ok []
  ∧ insertBuild testBase [("a", none)]
        = .ok { table := "test", rows := [[]], dups := [] }
  ∧ removeUndefined [("a", some (CondVal.vstr "b")), ("c", none)]
        = .ok [("a", CondVal.vstr "b")]
  ∧ insertBuild testBase [("a", some (CondVal.vstr "b")), ("c", none)]
        = .ok { table := "test", rows := [[("a", CondVal.vstr "b")]], dups := [] }
  ∧ batchInsertBuild testBase [[("a", none)]]
        = .ok { table := "test", rows := [[]], dups := [] } := by
  exact ⟨rfl, rfl, rfl, rfl, rfl⟩

/-- Database oracle for the `page` counterexample: the count query returns one
row with `c = 7`, the list query an empty row array. -/
def pageDb : SelectStmt → ResV := fun s =>
  if s = countBuild testBase [] then ResV.rows [⟨[("c", CondVal.vnum 7)]⟩]
  else ResV.rows []

/-- C5 counterexample: when the list fetch resolves with an empty row array —
truthy in JS — `page` resolves with `{count, list: []}`, not with a falsy
value as the claim's exception clause states. -/
theorem page_empty_list_counterexample :
    pageOp testBase pageDb [] ["a"] []
        = ResV.pageObj (ResV.num 7) (ResV.rows [])
  ∧ truthyR (pageOp testBase pageDb [] ["a"] []) = true := by
  constructor <;> rfl

/-- C5 (amended): `page` combines the two independently-run sub-operations:
when the list fetch resolves truthy the result is `{count, list}` whose `list`
is the list sub-result and whose `count` is the count sub-result (defaulted to
0 when that is `undefined`); when the list fetch resolves falsy — which for a
row array never happens, since even `[]` is truthy — the page result is that
falsy value itself. -/
theorem page_components (b : EBaseInst) (db : SelectStmt → ResV)
    (conds : List (String × CondVal)) (fields : List String) (args : List JsV) :
    pageOp b db conds fields args =
      if truthyR (listOp b db conds fields args) then
        ResV.pageObj
          (if countOp b db conds = ResV.undefined then ResV.num 0
           else countOp b db conds)
          (listOp b db conds fields args)
      else listOp b db conds fields args := by
  simp only [pageOp, listOp, countOp, jsAndR]

/-- C6: with a write result of 3 affected rows, the single-mapped affected-row
operations resolve with the number 3, but `updateByField` applies the
`res && res.affectedRows` projection a second time to the number 3 —
yielding `undefined` — and `updateByPrimary` a third time. -/
theorem affected_rows_mapping :
    updateByFieldRawOp testBase (fun _ => ResV.okPacket 3)
        [("a", CondVal.vstr "b")] [("c", some (CondVal.vstr "d"))] false
        = .ok (ResV.num 3)
  ∧ updateByFieldOp testBase (fun _ => ResV.okPacket 3)
        [("a", CondVal.vstr "b")] [("c", some (CondVal.vstr "d"))] false
        = .ok ResV.undefined
  ∧ updateByPrimaryOp testBase (fun _ => ResV.okPacket 3)
        (some (CondVal.vnum 1)) [("c", some (CondVal.vstr "d"))] false
        = .ok ResV.undefined
  ∧ deleteByFieldOp testBase (fun _ => ResV.okPacket 3)
        [("a", CondVal.vstr "b")] (JsV.num 1) = .ok (ResV.num 3)
  ∧ deleteByPrimaryOp testBase (fun _ => ResV.okPacket 3)
        (some (CondVal.vnum 1)) = .ok (ResV.num 3)
  ∧ incrFieldsOp testBase (fun _ => ResV.okPacket 3)
        (some (CondVal.vnum 1)) ["a"] 1 = .ok (ResV.num 3) := by
  exact ⟨rfl, rfl, rfl, rfl, rfl, rfl⟩

/-- C7: every primary-keyed operation given an absent (`undefined`) primary
raises `InvalidArgument` synchronously while the statement is built; the
result is the same error for every database oracle, so no I/O is attempted. -/
theorem absent_primary_rejected (b : EBaseInst) (fields : List String)
    (objects : List (String × Option CondVal)) (raw : Bool) (num : Int)
    (db1 : SelectStmt → ResV) (db2 : DeleteStmt → ResV) (db3 : UpdateStmt → ResV) :
    getByPrimaryBuild b none fields = .error "`primary` 不能为空"
  ∧ getByPrimaryOp b db1 none fields = .error "`primary` 不能为空"
  ∧ deleteByPrimaryBuild b none = .error "`primary` 不能为空"
  ∧ deleteByPrimaryOp b db2 none = .error "`primary` 不能为空"
  ∧ updateByPrimaryOp b db3 none objects raw = .error "`primary` 不能为空"
  ∧ incrFieldsBuild b none fields num = .error "`primary` 不能为空"
  ∧ incrFieldsOp b db3 none fields num = .error "`primary` 不能为空" := by
  exact ⟨rfl, rfl, rfl, rfl, rfl, rfl, rfl⟩

/-- C8: the `search` dispatcher unpacks a single options record into exactly
the statement of the equivalent positional call, but the `listRaw` dispatcher
tests `args.length === 2 && typeof args[1] === "object"` while the record
arrives as the only rest argument, so an options-record `list` call falls into
the positional branch and the whole record is handed to `_list` as the
`limit` argument. -/
theorem list_options_record_mismatch :
    searchDispatch testBase "kw" ["name"] ["a"]
        [JsV.page (JsV.num 10) (JsV.num 20) JsV.undefined JsV.undefined]
      = searchDispatch testBase "kw" ["name"] ["a"]
        [JsV.num 10, JsV.num 20, JsV.undefined, JsV.undefined]
  ∧ (listDispatch testBase [] ["a"]
        [JsV.page (JsV.num 10) (JsV.num 20) JsV.undefined JsV.undefined]).limit
      = some (JsV.page (JsV.num 10) (JsV.num 20) JsV.undefined JsV.undefined)
  ∧ listDispatch testBase [] ["a"]
        [JsV.page (JsV.num 10) (JsV.num 20) JsV.undefined JsV.undefined]
      ≠ listDispatch testBase [] ["a"] [JsV.num 10, JsV.num 20] := by
  refine ⟨rfl, rfl, ?_⟩
  decide

/-- The duplicate-key rule exactly as the claim words it: a two-element
sequence contributes an explicit `(column, value)` override pair; a defined
non-sequence value contributes `key = value`; an absent, non-array value
contributes nothing.  (Sequences of other lengths are outside the claim's
wording and are excluded by hypothesis where this definition is compared with
the source.) -/
def claimDupRule (objs : List (String × CondVal)) (k : String) : Option DupPair :=
  match jsGet objs k with
  | some (CondVal.varr [c, v]) => some ⟨some c, some (CondVal.vstr v)⟩
  | some (CondVal.varr _) => none
  | some v => some ⟨some k, some v⟩
  | none => none

/-- Every sequence value in a stripped payload has exactly two elements. -/
def twoElemArrays (objs : List (String × CondVal)) : Bool :=
  objs.all fun kv =>
    match kv.2 with
    | CondVal.varr l => l.length == 2
    | _ => true

theorem dupRule_eq_claimDupRule (objs : List (String × CondVal)) (k : String)
    (h2 : twoElemArrays objs = true) :
    dupRule objs k = claimDupRule objs k := by
  unfold dupRule claimDupRule
  cases hg : jsGet objs k with
  | none => rfl
  | some v =>
    cases v with
    | vstr s => rfl
    | vnum n => rfl
    | varr l =>
      have hmem : ∃ kv ∈ objs, kv.2 = CondVal.varr l := by
        unfold jsGet at hg
        cases hf : objs.find? (fun kv => kv.1 = k) with
        | none => simp [hf] at hg
        | some kv =>
          rw [hf] at hg
          simp only [Option.map_some', Option.some.injEq] at hg
          exact ⟨kv, List.mem_of_find?_eq_some hf, hg⟩
      rcases hmem with ⟨kv, hkv, hv⟩
      have hlen : l.length = 2 := by
        have hall := List.all_eq_true.mp h2 kv hkv
        rw [hv] at hall
        simpa using hall
      obtain ⟨c, v, rfl⟩ : ∃ c v, l = [c, v] := by
        match l, hlen with
        | [c, v], _ => exact ⟨c, v, rfl⟩
      rfl

/-- C9: `_createOrUpdate` strips the payload, inserts it, and derives the
ON DUPLICATE KEY UPDATE entries from the update-key list exactly by the
claim's per-key rule — a two-element sequence value becomes an explicit
`(column, value)` override pair, a defined non-sequence value becomes
`key = value`, and a key absent from the stripped payload contributes
nothing. -/
theorem createOrUpdate_matches_claim (b : EBaseInst)
    (objects : List (String × Option CondVal)) (update : List String)
    (h2 : twoElemArrays (stripUndefined objects) = true) :
    createOrUpdateBuild b objects update
      = .ok { table := b.table
              rows := [stripUndefined objects]
              dups := update.filterMap (claimDupRule (stripUndefined objects)) } := by
  have hfun : dupRule (stripUndefined objects) = claimDupRule (stripUndefined objects) :=
    funext fun k => dupRule_eq_claimDupRule _ k h2
  unfold createOrUpdateBuild
  rw [removeUndefined_never_errors]
  refine congrArg Except.ok ?_
  beta_reduce
  rw [hfun]

/-- Witness for C9 at a concrete payload: a plain value under key `c`, a
two-element sequence under key `p`, a stripped (`undefined`) key `z`, and an
update key `zz` absent from the payload. -/
theorem createOrUpdate_claim_witness :
    createOrUpdateBuild testBase
        [("c", some (CondVal.vstr "1")), ("p", some (CondVal.varr ["col", "9"])),
         ("z", none)]
        ["c", "p", "zz"]
      = .ok { table := "test"
              rows := [[("c", CondVal.vstr "1"), ("p", CondVal.varr ["col", "9"])]]
              dups := [⟨some "c", some (CondVal.vstr "1")⟩,
                       ⟨some "col", some (CondVal.vstr "9")⟩] } :=
  createOrUpdate_matches_claim testBase
    [("c", some (CondVal.vstr "1")), ("p", some (CondVal.varr ["col", "9"])), ("z", none)]
    ["c", "p", "zz"] (by decide)

theorem listBuild_default_asc (b : EBaseInst) (conds : List (String × CondVal))
    (fields : List String) (limit offset order : JsV) (o a : JsV)
    (h : (listBuild b conds fields limit offset order JsV.undefined).order = some (o, a)) :
    a = JsV.bool b.asc := by
  simp only [listBuild, jsDefault, reduceIte] at h
  split at h <;> split at h <;>
    first
      | (rw [Option.some.injEq, Prod.mk.injEq] at h; exact h.2.symm)
      | exact absurd h (by simp)

/-- C10: `this.asc = options.asc || true` makes the constructed instance's
ascending flag `true` for every options record — even `{asc: false}` — so a
descending default direction cannot be configured, and every `_list` statement
built with the instance-default direction (the `asc` argument left
`undefined`) that records an order clause records it as ascending. -/
theorem default_sort_always_ascending (table : String) (opts : BaseOptions)
    (conds : List (String × CondVal)) (fields : List String)
    (limit offset order : JsV) (o a : JsV)
    (h : (listBuild (mkEBase table opts) conds fields limit offset order JsV.undefined).order
          = some (o, a)) :
    (mkEBase table opts).asc = true ∧ a = JsV.bool true := by
  have hasc : (mkEBase table opts).asc = true := by
    cases hopt : opts.asc with
    | none => simp [mkEBase, jsOrBool, hopt]
    | some b => cases b <;> simp [mkEBase, jsOrBool, hopt]
  have hdir := listBuild_default_asc (mkEBase table opts) conds fields limit offset order o a h
  rw [hasc] at hdir
  exact ⟨hasc, hdir⟩

/-- Witness for C10: an instance explicitly configured with `asc: false` and a
default order column still builds an ascending order clause. -/
theorem default_sort_witness :
    (mkEBase "t" { order := some "id", asc := some false }).asc = true
  ∧ JsV.bool true = JsV.bool true :=
  default_sort_always_ascending "t" { order := some "id", asc := some false } [] []
    JsV.undefined JsV.undefined JsV.undefined (JsV.str "id") (JsV.bool true) rfl
